import Mathlib

/-!
Shallow embedding of `pat.py`, a reader/writer for Ned Graphics `.PAT`
textile pattern files, together with proofs about its behaviour.

Python machine-level details are modelled explicitly: byte strings are
`List Nat`, `struct.pack_into` / `struct.unpack_from` perform the same
bounds and value-range checks as the originals, and every operation that
can raise a Python exception returns `Except PatError`.
-/

namespace Pat

/-- Errors the embedded operations can produce.  `tooManyChannels` is the one
exception class declared by the source.  `zeroDivisionError`, `structError`,
`indexError`, `valueError` and `typeError` stand for the Python builtin
exceptions the source can raise.  `truncatedFormat`, `invalidDrop`,
`unknownResolution` and `invalidPaletteIndex` are error kinds that appear only
in the design documentation (never in the source); they are included so that
statements can compare the errors the code actually raises against them. -/
inductive PatError where
  | tooManyChannels
  | zeroDivisionError
  | structError
  | indexError
  | valueError
  | typeError
  | truncatedFormat
  | invalidDrop
  | unknownResolution
  | invalidPaletteIndex
deriving DecidableEq

instance {ε α : Type} [DecidableEq ε] [DecidableEq α] : DecidableEq (Except ε α)
  | .error e, .error f =>
    if h : e = f then isTrue (by rw [h]) else isFalse (by intro he; cases he; exact h rfl)
  | .error _, .ok _ => isFalse (by intro h; cases h)
  | .ok _, .error _ => isFalse (by intro h; cases h)
  | .ok a, .ok b =>
    if h : a = b then isTrue (by rw [h]) else isFalse (by intro he; cases he; exact h rfl)

/-- An RGB triple `(red, green, blue)`. -/
abbrev RGB : Type := Nat × Nat × Nat

/-- The fields a `Pattern` object holds after `__init__` stored them. -/
structure Pattern where
  size : Nat × Nat
  drop : Nat
  channels : List RGB
  bitmap : List Nat
  qual : Nat
deriving DecidableEq

/-- `Pattern.MAX_CHANNELS`. -/
def Pattern.MAX_CHANNELS : Nat := 256

/-- `Pattern.__init__(size, drop, channels, bitmap, qual)`: the fields are
stored, then `TooManyChannels` is raised when more than `MAX_CHANNELS`
channels were supplied (the exception propagates, so the caller never
receives the object). -/
def Pattern.init (size : Nat × Nat) (drop : Nat) (channels : List RGB)
    (bitmap : List Nat) (qual : Nat) : Except PatError Pattern :=
  if Pattern.MAX_CHANNELS < channels.length then .error .tooManyChannels
  else .ok ⟨size, drop, channels, bitmap, qual⟩

/-- `Pattern.columns_per_inch`: hard set to 7 for Brintons looms. -/
def Pattern.columns_per_inch (_ : Pattern) : Nat := 7

/-- `Pattern.rows_per_inch`: interprets the quality code `qual` via the old
encoding (71..79), the new encoding (501..1099 with `qual % 100` in 3..24),
and otherwise returns 0. -/
def Pattern.rows_per_inch (p : Pattern) : Nat :=
  if 71 ≤ p.qual ∧ p.qual ≤ 79 then p.qual % 10
  else if 501 ≤ p.qual ∧ p.qual ≤ 1099 ∧ 3 ≤ p.qual % 100 ∧ p.qual % 100 ≤ 24 then
    p.qual % 100
  else 0

/-- Python division `a / b` on numbers: raises `ZeroDivisionError` on a zero
divisor.  Exact rationals stand in for Python floats; none of the statements
below depend on rounding. -/
def fdiv (a b : Rat) : Except PatError Rat :=
  if b = 0 then .error .zeroDivisionError else .ok (a / b)

/-- `Pattern.size_inches`: `(size[0] / columns_per_inch, size[1] / rows_per_inch)`. -/
def Pattern.size_inches (p : Pattern) : Except PatError (Rat × Rat) :=
  fdiv (p.size.1 : Rat) (p.columns_per_inch : Rat) >>= fun x =>
  fdiv (p.size.2 : Rat) (p.rows_per_inch : Rat) >>= fun y =>
  .ok (x, y)

/-- `Pattern.size_metres`: `size_inches` scaled by `1000 / 25.40`. -/
def Pattern.size_metres (p : Pattern) : Except PatError (Rat × Rat) :=
  p.size_inches >>= fun si =>
  fdiv si.1 (1000 / (254 / 10 : Rat)) >>= fun x =>
  fdiv si.2 (1000 / (254 / 10 : Rat)) >>= fun y =>
  .ok (x, y)

/-- Model of the external image collaborator (the `Image` module the source
imports), restricted to the operations the source uses: an RGB image is its
size together with a pixel function. -/
structure Image where
  size : Nat × Nat
  px : Nat → Nat → RGB

/-- `Image.new('RGB', size)`: a black image of the given size. -/
def Image.new (size : Nat × Nat) : Image := ⟨size, fun _ _ => (0, 0, 0)⟩

/-- `image.putdata(data)`: fill pixels row-major from `data`, keeping old
pixels past the end of `data`. -/
def Image.putdata (im : Image) (data : List RGB) : Image :=
  ⟨im.size, fun x y =>
    if y * im.size.1 + x < data.length then data.getD (y * im.size.1 + x) (0, 0, 0)
    else im.px x y⟩

/-- `image.paste(pat, (x0, y0))`: overwrite the rectangle at `(x0, y0)`. -/
def Image.paste (im : Image) (pat : Image) (x0 y0 : Nat) : Image :=
  ⟨im.size, fun x y =>
    if x0 ≤ x ∧ x < x0 + pat.size.1 ∧ y0 ≤ y ∧ y < y0 + pat.size.2 then
      pat.px (x - x0) (y - y0)
    else im.px x y⟩

/-- `ImageChops.offset(im, 0, dy)`: cyclic vertical shift by `dy`. -/
def Image.offsetY (im : Image) (dy : Nat) : Image :=
  ⟨im.size, fun x y =>
    if im.size.2 = 0 then im.px x y
    else im.px x ((y + (im.size.2 - dy % im.size.2)) % im.size.2)⟩

/-- `image.getdata()`: the pixels in row-major order. -/
def Image.getdata (im : Image) : List RGB :=
  (List.range (im.size.1 * im.size.2)).map fun i =>
    im.px (i % im.size.1) (i / im.size.1)

/-- `image.getcolors(maxcolors)`: the distinct colours with their counts, or
`None` when there are more than `maxcolors` of them. -/
def Image.getcolors (im : Image) (maxcolors : Nat) : Option (List (Nat × RGB)) :=
  let cs := im.getdata.eraseDups
  if maxcolors < cs.length then none
  else some (cs.map fun c => (im.getdata.count c, c))

/-- Python `int(a / b)` on non-negative integers: floor division, raising
`ZeroDivisionError` on a zero divisor. -/
def pyIntDiv (a b : Nat) : Except PatError Nat :=
  if b = 0 then .error .zeroDivisionError else .ok (a / b)

/-- The comprehension `[self.channels[bit] for bit in self.bitmap]`; an
out-of-range index raises `IndexError`. -/
def lookupPixels (channels : List RGB) : List Nat → Except PatError (List RGB)
  | [] => .ok []
  | b :: rest =>
    match channels[b]? with
    | some c => (lookupPixels channels rest).map fun tl => c :: tl
    | none => .error .indexError

/-- The paste loop of `to_image`: for `repeat` in `range(0, repeats)` the
pattern is pasted at `(w * repeat, 0)` and then cyclically shifted down by
`drop`.  The third argument is the current repeat index, the fourth the
number of iterations left. -/
def pasteLoop (w drop : Nat) : Image → Image → Nat → Nat → Image
  | image, _, _, 0 => image
  | image, pattern, r, k + 1 =>
    pasteLoop w drop (image.paste pattern (w * r) 0) (pattern.offsetY drop) (r + 1) k

/-- `Pattern.to_image(full_repeat)`. -/
def Pattern.to_image (p : Pattern) (full_repeat : Bool) : Except PatError Image :=
  (if full_repeat then pyIntDiv p.size.2 p.drop else .ok 1) >>= fun repeats =>
  let image := Image.new (p.size.1 * repeats, p.size.2)
  lookupPixels p.channels p.bitmap >>= fun pixels =>
  let pattern := (Image.new p.size).putdata pixels
  .ok (pasteLoop p.size.1 p.drop image pattern 0 repeats)

/-- Python `drop or image.size[1]`: both `None` and `0` are falsy. -/
def pyOr (drop : Option Nat) (h : Nat) : Nat :=
  match drop with
  | none => h
  | some n => if n = 0 then h else n

/-- The comprehension `[channels.index(pixel) for pixel in image.getdata()]`;
a pixel absent from `channels` raises `ValueError`. -/
def listIndex (channels : List RGB) : List RGB → Except PatError (List Nat)
  | [] => .ok []
  | c :: rest =>
    if c ∈ channels then
      (listIndex channels rest).map fun tl => channels.indexOf c :: tl
    else .error .valueError

/-- `Pattern.from_image(image, drop)`. -/
def Pattern.from_image (image : Image) (drop : Option Nat) : Except PatError Pattern :=
  match image.getcolors 256 with
  | none => .error .typeError
  | some colours =>
    let channels := colours.map fun c => c.2
    listIndex channels image.getdata >>= fun bitmap =>
    Pattern.init image.size (pyOr drop image.size.2) channels bitmap 0

/-- `struct.unpack_from('>H', s, off)`: big-endian 16-bit read with the
 bounds check `struct` performs. -/
def unpackBE16 (s : List Nat) (off : Nat) : Except PatError Nat :=
  if off + 2 ≤ s.length then .ok (s.getD off 0 * 256 + s.getD (off + 1) 0)
  else .error .structError

/-- `struct.unpack_from('<H', s, off)`: little-endian 16-bit read. -/
def unpackLE16 (s : List Nat) (off : Nat) : Except PatError Nat :=
  if off + 2 ≤ s.length then .ok (s.getD off 0 + s.getD (off + 1) 0 * 256)
  else .error .structError

/-- `struct.unpack_from(str(n) + 'B', s, off)`: `n` unsigned bytes. -/
def unpackBytes (s : List Nat) (off n : Nat) : Except PatError (List Nat) :=
  if off + n ≤ s.length then .ok ((List.range n).map fun i => s.getD (off + i) 0)
  else .error .structError

/-- `loads(s)`: decode a pattern from a byte string. -/
def loads (s : List Nat) : Except PatError Pattern :=
  unpackBE16 s 0 >>= fun width =>
  unpackBE16 s 2 >>= fun height =>
  unpackLE16 s 30 >>= fun drop =>
  unpackBytes s 512 256 >>= fun greens =>
  unpackBytes s 768 256 >>= fun reds =>
  unpackBytes s 1024 256 >>= fun blues =>
  let channels := (List.range 256).map fun i =>
    ((reds.getD i 0, greens.getD i 0, blues.getD i 0) : RGB)
  unpackBytes s 1536 (width * height) >>= fun bitmap =>
  unpackBE16 s 18 >>= fun qual =>
  Pattern.init (width, height) drop channels bitmap qual

/-- `struct.pack_into('B', buf, off, v)`: write one byte, with the value and
bounds checks `struct` performs. -/
def packB (buf : List Nat) (off v : Nat) : Except PatError (List Nat) :=
  if v < 256 ∧ off + 1 ≤ buf.length then .ok (buf.set off v)
  else .error .structError

/-- `struct.pack_into('>H', buf, off, v)`: big-endian 16-bit write. -/
def packBE16 (buf : List Nat) (off v : Nat) : Except PatError (List Nat) :=
  if v < 65536 ∧ off + 2 ≤ buf.length then
    .ok ((buf.set off (v / 256)).set (off + 1) (v % 256))
  else .error .structError

/-- `struct.pack_into('<H', buf, off, v)`: little-endian 16-bit write. -/
def packLE16 (buf : List Nat) (off v : Nat) : Except PatError (List Nat) :=
  if v < 65536 ∧ off + 2 ≤ buf.length then
    .ok ((buf.set off (v % 256)).set (off + 1) (v / 256))
  else .error .structError

/-- The channel loop of `dumps`: for `i, channel` in `enumerate(channels)`,
the green byte goes to `513 + i`, the red byte to `768 + i` and the blue
byte to `1025 + i`. -/
def writeChannels (buf : List Nat) (i : Nat) : List RGB → Except PatError (List Nat)
  | [] => .ok buf
  | c :: rest =>
    packB buf (513 + i) c.2.1 >>= fun b1 =>
    packB b1 (768 + i) c.1 >>= fun b2 =>
    packB b2 (1025 + i) c.2.2 >>= fun b3 =>
    writeChannels b3 (i + 1) rest

/-- `struct.pack_into(str(n) + 'B', buf, off, *vs)`: write `vs` contiguously. -/
def packBytes (buf : List Nat) (off : Nat) : List Nat → Except PatError (List Nat)
  | [] => .ok buf
  | v :: rest => packB buf off v >>= fun b => packBytes b (off + 1) rest

/-- `dumps(pattern)`: serialize a pattern into a zero-initialized buffer of
`1536 + len(bitmap)` bytes. -/
def dumps (p : Pattern) : Except PatError (List Nat) :=
  let buf := List.replicate (1536 + p.bitmap.length) 0
  packBE16 buf 0 p.size.1 >>= fun b1 =>
  packBE16 b1 2 p.size.2 >>= fun b2 =>
  packLE16 b2 30 p.drop >>= fun b3 =>
  writeChannels b3 0 p.channels >>= fun b4 =>
  packBytes b4 1536 p.bitmap >>= fun b5 =>
  if 0 < p.qual then packBE16 b5 18 p.qual else .ok b5

/-- A pattern all of whose fields fit the wire format: 16-bit dimensions,
drop and quality code, at most 256 channels of byte components, byte-valued
bitmap entries, and a bitmap of exactly `width * height` entries. -/
def Valid (p : Pattern) : Prop :=
  p.size.1 < 65536 ∧ p.size.2 < 65536 ∧ p.drop < 65536 ∧ p.qual < 65536 ∧
  p.channels.length ≤ 256 ∧
  (∀ c ∈ p.channels, c.1 < 256 ∧ c.2.1 < 256 ∧ c.2.2 < 256) ∧
  (∀ b ∈ p.bitmap, b < 256) ∧
  p.bitmap.length = p.size.1 * p.size.2

instance (p : Pattern) : Decidable (Valid p) := by
  unfold Valid; infer_instance

/-! ### Basic lemmas about the byte-buffer primitives -/

theorem bind_ok {α β : Type} (a : α) (f : α → Except PatError β) :
    (Except.ok a >>= f) = f a := rfl

theorem bind_err {α β : Type} (e : PatError) (f : α → Except PatError β) :
    ((Except.error e : Except PatError α) >>= f) = .error e := rfl

theorem getD_set (l : List Nat) (i j v : Nat) :
    (l.set i v).getD j 0 = if j = i ∧ i < l.length then v else l.getD j 0 := by
  induction l generalizing i j with
  | nil => simp
  | cons a t ih =>
    cases i with
    | zero =>
      cases j with
      | zero => simp
      | succ j => simp
    | succ i =>
      cases j with
      | zero => simp
      | succ j =>
        rw [List.set_cons_succ, List.getD_cons_succ, List.getD_cons_succ, ih]
        have hiff : (j = i ∧ i < t.length) ↔
            (j + 1 = i + 1 ∧ i + 1 < (a :: t).length) := by
          simp only [List.length_cons]; omega
        by_cases h : j = i ∧ i < t.length
        · rw [if_pos h, if_pos (hiff.mp h)]
        · rw [if_neg h, if_neg (fun hc => h (hiff.mpr hc))]

theorem getD_replicate (n k : Nat) : (List.replicate n (0 : Nat)).getD k 0 = 0 := by
  induction n generalizing k with
  | zero => simp
  | succ n ih =>
    cases k with
    | zero => simp [List.replicate_succ]
    | succ k => simp [List.replicate_succ, ih]

theorem getD_range_map {α : Type} (f : Nat → α) (n i : Nat) (d : α) (h : i < n) :
    ((List.range n).map f).getD i d = f i := by
  rw [List.getD_eq_getElem?_getD, List.getElem?_map, List.getElem?_range h]
  rfl

theorem getD_set3 (buf : List Nat) (i0 k g r b : Nat)
    (hL : 1536 ≤ buf.length) (hi : i0 ≤ 255) :
    (((buf.set (513 + i0) g).set (768 + i0) r).set (1025 + i0) b).getD k 0 =
      if k = 1025 + i0 then b
      else if k = 768 + i0 then r
      else if k = 513 + i0 then g
      else buf.getD k 0 := by
  rw [getD_set, getD_set, getD_set]
  simp only [List.length_set]
  by_cases e1 : k = 1025 + i0
  · rw [if_pos ⟨e1, by omega⟩, if_pos e1]
  · rw [if_neg (fun h => e1 h.1), if_neg e1]
    by_cases e2 : k = 768 + i0
    · rw [if_pos ⟨e2, by omega⟩, if_pos e2]
    · rw [if_neg (fun h => e2 h.1), if_neg e2]
      by_cases e3 : k = 513 + i0
      · rw [if_pos ⟨e3, by omega⟩, if_pos e3]
      · rw [if_neg (fun h => e3 h.1), if_neg e3]

/-! ### Characterizing the channel-writing loop

`chanByte i cs k` is the byte the loop starting at enumeration index `i`
with remaining channels `cs` leaves at buffer offset `k` (`none` when the
loop never writes there).  Later iterations overwrite earlier ones, hence
the recursive call takes priority. -/

def chanByte (i : Nat) : List RGB → Nat → Option Nat
  | [], _ => none
  | c :: rest, k =>
    match chanByte (i + 1) rest k with
    | some v => some v
    | none =>
      if k = 1025 + i then some c.2.2
      else if k = 768 + i then some c.1
      else if k = 513 + i then some c.2.1
      else none

theorem chanByte_none (cs : List RGB) (i0 k : Nat)
    (h : ∀ j, j < cs.length →
      k ≠ 513 + (i0 + j) ∧ k ≠ 768 + (i0 + j) ∧ k ≠ 1025 + (i0 + j)) :
    chanByte i0 cs k = none := by
  induction cs generalizing i0 with
  | nil => rfl
  | cons c rest ih =>
    have hrest : chanByte (i0 + 1) rest k = none := by
      apply ih
      intro j hj
      obtain ⟨a, b, c⟩ := h (j + 1) (by simp only [List.length_cons]; omega)
      exact ⟨by omega, by omega, by omega⟩
    obtain ⟨a, b, c⟩ := h 0 (by simp only [List.length_cons]; omega)
    simp only [chanByte, hrest]
    rw [if_neg (by omega), if_neg (by omega), if_neg (by omega)]

theorem chanByte_green (cs : List RGB) (i0 t : Nat) (hn : i0 + cs.length ≤ 256)
    (h1 : i0 ≤ t) (h2 : t < i0 + cs.length) :
    chanByte i0 cs (513 + t) = some ((cs.getD (t - i0) (0, 0, 0)).2.1) := by
  induction cs generalizing i0 with
  | nil => simp at h2; omega
  | cons c rest ih =>
    simp only [List.length_cons] at hn h2
    by_cases ht : i0 + 1 ≤ t
    · have hrec := ih (i0 + 1) (by omega) ht (by omega)
      simp only [chanByte, hrec]
      have he : t - i0 = (t - (i0 + 1)) + 1 := by omega
      rw [he, List.getD_cons_succ]
    · have hti : t = i0 := by omega
      subst hti
      have hrest : chanByte (t + 1) rest (513 + t) = none := by
        apply chanByte_none
        intro j hj
        exact ⟨by omega, by omega, by omega⟩
      simp only [chanByte, hrest]
      rw [if_neg (by omega), if_neg (by omega)]
      simp

theorem chanByte_red (cs : List RGB) (i0 t : Nat) (hn : i0 + cs.length ≤ 256)
    (h1 : i0 ≤ t) (h2 : t < i0 + cs.length) (hno : i0 + cs.length ≤ 255 + t) :
    chanByte i0 cs (768 + t) = some ((cs.getD (t - i0) (0, 0, 0)).1) := by
  induction cs generalizing i0 with
  | nil => simp at h2; omega
  | cons c rest ih =>
    simp only [List.length_cons] at hn h2 hno
    by_cases ht : i0 + 1 ≤ t
    · have hrec := ih (i0 + 1) (by omega) ht (by omega) (by omega)
      simp only [chanByte, hrec]
      have he : t - i0 = (t - (i0 + 1)) + 1 := by omega
      rw [he, List.getD_cons_succ]
    · have hti : t = i0 := by omega
      subst hti
      have hrest : chanByte (t + 1) rest (768 + t) = none := by
        apply chanByte_none
        intro j hj
        exact ⟨by omega, by omega, by omega⟩
      simp only [chanByte, hrest]
      rw [if_neg (by omega)]
      simp

theorem chanByte_blue (cs : List RGB) (i0 t : Nat) (hn : i0 + cs.length ≤ 256)
    (h1 : i0 ≤ t) (h2 : t < i0 + cs.length) :
    chanByte i0 cs (1025 + t) = some ((cs.getD (t - i0) (0, 0, 0)).2.2) := by
  induction cs generalizing i0 with
  | nil => simp at h2; omega
  | cons c rest ih =>
    simp only [List.length_cons] at hn h2
    by_cases ht : i0 + 1 ≤ t
    · have hrec := ih (i0 + 1) (by omega) ht (by omega)
      simp only [chanByte, hrec]
      have he : t - i0 = (t - (i0 + 1)) + 1 := by omega
      rw [he, List.getD_cons_succ]
    · have hti : t = i0 := by omega
      subst hti
      have hrest : chanByte (t + 1) rest (1025 + t) = none := by
        apply chanByte_none
        intro j hj
        exact ⟨by omega, by omega, by omega⟩
      simp only [chanByte, hrest]
      simp

theorem writeChannels_spec (cs : List RGB) (i0 : Nat) (buf : List Nat)
    (hL : 1536 ≤ buf.length) (hn : i0 + cs.length ≤ 256)
    (hv : ∀ c ∈ cs, c.1 < 256 ∧ c.2.1 < 256 ∧ c.2.2 < 256) :
    ∃ out, writeChannels buf i0 cs = .ok out ∧ out.length = buf.length ∧
      ∀ k, out.getD k 0 = (chanByte i0 cs k).getD (buf.getD k 0) := by
  induction cs generalizing i0 buf with
  | nil => exact ⟨buf, rfl, rfl, fun k => rfl⟩
  | cons c rest ih =>
    simp only [List.length_cons] at hn
    have hc := hv c (List.mem_cons_self c rest)
    have hi : i0 ≤ 255 := by omega
    have p1 : packB buf (513 + i0) c.2.1 = .ok (buf.set (513 + i0) c.2.1) := by
      rw [packB, if_pos ⟨hc.2.1, by omega⟩]
    have p2 : packB (buf.set (513 + i0) c.2.1) (768 + i0) c.1 =
        .ok ((buf.set (513 + i0) c.2.1).set (768 + i0) c.1) := by
      rw [packB, if_pos ⟨hc.1, by rw [List.length_set]; omega⟩]
    have p3 : packB ((buf.set (513 + i0) c.2.1).set (768 + i0) c.1) (1025 + i0) c.2.2 =
        .ok (((buf.set (513 + i0) c.2.1).set (768 + i0) c.1).set (1025 + i0) c.2.2) := by
      rw [packB, if_pos ⟨hc.2.2, by rw [List.length_set, List.length_set]; omega⟩]
    obtain ⟨out, ho, hol, hok⟩ := ih (i0 + 1)
      (((buf.set (513 + i0) c.2.1).set (768 + i0) c.1).set (1025 + i0) c.2.2)
      (by simp only [List.length_set]; omega) (by omega)
      (fun d hd => hv d (List.mem_cons_of_mem _ hd))
    refine ⟨out, ?_, by simp only [hol, List.length_set], fun k => ?_⟩
    · simp only [writeChannels, p1, bind_ok, p2, p3, ho]
    · rw [hok k, getD_set3 buf i0 k _ _ _ hL hi]
      simp only [chanByte]
      cases hcb : chanByte (i0 + 1) rest k with
      | some v => rfl
      | none =>
        rw [Option.getD_none]
        by_cases e1 : k = 1025 + i0
        · rw [if_pos e1, if_pos e1, Option.getD_some]
        · rw [if_neg e1, if_neg e1]
          by_cases e2 : k = 768 + i0
          · rw [if_pos e2, if_pos e2, Option.getD_some]
          · rw [if_neg e2, if_neg e2]
            by_cases e3 : k = 513 + i0
            · rw [if_pos e3, if_pos e3, Option.getD_some]
            · rw [if_neg e3, if_neg e3, Option.getD_none]

theorem packBytes_spec (vs : List Nat) (buf : List Nat) (off : Nat)
    (hle : off + vs.length ≤ buf.length) (hv : ∀ v ∈ vs, v < 256) :
    ∃ out, packBytes buf off vs = .ok out ∧ out.length = buf.length ∧
      ∀ k, out.getD k 0 =
        if off ≤ k ∧ k < off + vs.length then vs.getD (k - off) 0
        else buf.getD k 0 := by
  induction vs generalizing buf off with
  | nil =>
    refine ⟨buf, rfl, rfl, fun k => ?_⟩
    rw [if_neg (by simp only [List.length_nil, Nat.add_zero]; omega)]
  | cons v rest ih =>
    simp only [List.length_cons] at hle
    have hp : packB buf off v = .ok (buf.set off v) := by
      rw [packB, if_pos ⟨hv v (List.mem_cons_self v rest), by omega⟩]
    obtain ⟨out, ho, hol, hok⟩ := ih (buf.set off v) (off + 1)
      (by rw [List.length_set]; omega) (fun w hw => hv w (List.mem_cons_of_mem _ hw))
    refine ⟨out, ?_, by rw [hol, List.length_set], fun k => ?_⟩
    · simp only [packBytes, hp, bind_ok, ho]
    · rw [hok k, getD_set]
      by_cases e1 : off + 1 ≤ k ∧ k < off + 1 + rest.length
      · rw [if_pos e1, if_pos (by simp only [List.length_cons]; omega)]
        have he : k - off = (k - (off + 1)) + 1 := by omega
        rw [he, List.getD_cons_succ]
      · rw [if_neg e1]
        by_cases e2 : k = off
        · rw [if_pos ⟨e2, by omega⟩, if_pos (by simp only [List.length_cons]; omega)]
          subst e2
          simp
        · rw [if_neg (fun h => e2 h.1), if_neg (by simp only [List.length_cons]; omega)]

/-! ### Characterizing `dumps` -/

/-- The buffer after the three header writes of `dumps`: width and height
big-endian at 0 and 2, drop little-endian at 30, everything else still 0. -/
def hdrBuf (p : Pattern) : List Nat :=
  ((((((List.replicate (1536 + p.bitmap.length) 0).set 0 (p.size.1 / 256)).set 1
      (p.size.1 % 256)).set 2 (p.size.2 / 256)).set 3 (p.size.2 % 256)).set 30
      (p.drop % 256)).set 31 (p.drop / 256)

theorem hdrBuf_length (p : Pattern) : (hdrBuf p).length = 1536 + p.bitmap.length := by
  simp [hdrBuf, List.length_set, List.length_replicate]

theorem hdrBuf_getD (p : Pattern) (k : Nat) :
    (hdrBuf p).getD k 0 =
      if k = 31 then p.drop / 256 else if k = 30 then p.drop % 256
      else if k = 3 then p.size.2 % 256 else if k = 2 then p.size.2 / 256
      else if k = 1 then p.size.1 % 256 else if k = 0 then p.size.1 / 256
      else 0 := by
  simp only [hdrBuf]
  rw [getD_set, getD_set, getD_set, getD_set, getD_set, getD_set, getD_replicate]
  simp only [List.length_set, List.length_replicate]
  by_cases e31 : k = 31
  · rw [if_pos ⟨e31, by omega⟩, if_pos e31]
  · rw [if_neg (fun hx => e31 hx.1), if_neg e31]
    by_cases e30 : k = 30
    · rw [if_pos ⟨e30, by omega⟩, if_pos e30]
    · rw [if_neg (fun hx => e30 hx.1), if_neg e30]
      by_cases e3 : k = 3
      · rw [if_pos ⟨e3, by omega⟩, if_pos e3]
      · rw [if_neg (fun hx => e3 hx.1), if_neg e3]
        by_cases e2 : k = 2
        · rw [if_pos ⟨e2, by omega⟩, if_pos e2]
        · rw [if_neg (fun hx => e2 hx.1), if_neg e2]
          by_cases e1 : k = 1
          · rw [if_pos ⟨e1, by omega⟩, if_pos e1]
          · rw [if_neg (fun hx => e1 hx.1), if_neg e1]
            by_cases e0 : k = 0
            · rw [if_pos ⟨e0, by omega⟩, if_pos e0]
            · rw [if_neg (fun hx => e0 hx.1), if_neg e0]

theorem dumps_stage (p : Pattern) (hw : p.size.1 < 65536) (hh : p.size.2 < 65536)
    (hd : p.drop < 65536) :
    dumps p = (writeChannels (hdrBuf p) 0 p.channels >>= fun b4 =>
      packBytes b4 1536 p.bitmap >>= fun b5 =>
      if 0 < p.qual then packBE16 b5 18 p.qual else .ok b5) := by
  have hp1 : packBE16 (List.replicate (1536 + p.bitmap.length) 0) 0 p.size.1 =
      .ok (((List.replicate (1536 + p.bitmap.length) 0).set 0 (p.size.1 / 256)).set 1
        (p.size.1 % 256)) := by
    rw [packBE16, if_pos ⟨hw, by rw [List.length_replicate]; omega⟩]
  have hp2 : packBE16 (((List.replicate (1536 + p.bitmap.length) 0).set 0
        (p.size.1 / 256)).set 1 (p.size.1 % 256)) 2 p.size.2 =
      .ok (((((List.replicate (1536 + p.bitmap.length) 0).set 0 (p.size.1 / 256)).set 1
        (p.size.1 % 256)).set 2 (p.size.2 / 256)).set 3 (p.size.2 % 256)) := by
    rw [packBE16, if_pos ⟨hh, by simp only [List.length_set, List.length_replicate]; omega⟩]
  have hp3 : packLE16 (((((List.replicate (1536 + p.bitmap.length) 0).set 0
        (p.size.1 / 256)).set 1 (p.size.1 % 256)).set 2 (p.size.2 / 256)).set 3
        (p.size.2 % 256)) 30 p.drop = .ok (hdrBuf p) := by
    rw [packLE16, if_pos ⟨hd, by simp only [List.length_set, List.length_replicate]; omega⟩]
    rfl
  simp only [dumps, hp1, bind_ok, hp2, hp3]

/-- The byte the decoder reads back from green-plane offset `512 + i` of an
encoded pattern: the writer used base 513, so slot `i` holds the green
component of channel `i - 1`, and slot 0 was never written. -/
def decodedGreen (p : Pattern) (i : Nat) : Nat :=
  if 1 ≤ i ∧ i ≤ p.channels.length then (p.channels.getD (i - 1) (0, 0, 0)).2.1 else 0

/-- The byte read back from blue-plane offset `1024 + i`: same one-slot
stagger as the green plane (write base 1025 against read base 1024). -/
def decodedBlue (p : Pattern) (i : Nat) : Nat :=
  if 1 ≤ i ∧ i ≤ p.channels.length then (p.channels.getD (i - 1) (0, 0, 0)).2.2 else 0

/-- The byte read back from red-plane offset `768 + i`: the red component of
channel `i` (read and write base agree at 768), except that with exactly 256
channels the green write of channel 255 lands at `513 + 255 = 768` in a later
iteration and overwrites red slot 0. -/
def decodedRed (p : Pattern) (i : Nat) : Nat :=
  if i = 0 ∧ p.channels.length = 256 then (p.channels.getD 255 (0, 0, 0)).2.1
  else if i < p.channels.length then (p.channels.getD i (0, 0, 0)).1
  else 0

theorem dumps_spec (p : Pattern) (hv : Valid p) :
    ∃ B, dumps p = .ok B ∧ B.length = 1536 + p.bitmap.length ∧
      B.getD 0 0 = p.size.1 / 256 ∧ B.getD 1 0 = p.size.1 % 256 ∧
      B.getD 2 0 = p.size.2 / 256 ∧ B.getD 3 0 = p.size.2 % 256 ∧
      B.getD 30 0 = p.drop % 256 ∧ B.getD 31 0 = p.drop / 256 ∧
      B.getD 18 0 = p.qual / 256 ∧ B.getD 19 0 = p.qual % 256 ∧
      (∀ i, i < 256 → B.getD (512 + i) 0 = decodedGreen p i) ∧
      (∀ i, i < 256 → B.getD (768 + i) 0 = decodedRed p i) ∧
      (∀ i, i < 256 → B.getD (1024 + i) 0 = decodedBlue p i) ∧
      (∀ j, j < p.bitmap.length → B.getD (1536 + j) 0 = p.bitmap.getD j 0) := by
  obtain ⟨hw, hh, hd, hq, hcn, hcv, hbv, hbl⟩ := hv
  have hb3l : (hdrBuf p).length = 1536 + p.bitmap.length := hdrBuf_length p
  obtain ⟨B4, hwc, hB4l, hB4k⟩ := writeChannels_spec p.channels 0 (hdrBuf p)
    (by omega) (by omega) hcv
  obtain ⟨B5, hpb, hB5l, hB5k⟩ := packBytes_spec p.bitmap B4 1536 (by omega) hbv
  have hds : dumps p = (packBytes B4 1536 p.bitmap >>= fun b5 =>
      if 0 < p.qual then packBE16 b5 18 p.qual else .ok b5) := by
    rw [dumps_stage p hw hh hd]
    simp only [hwc, bind_ok]
  have hB5L : B5.length = 1536 + p.bitmap.length := by omega
  have hdrz : ∀ k, 32 ≤ k → (hdrBuf p).getD k 0 = 0 := by
    intro k hk
    rw [hdrBuf_getD]
    rw [if_neg (by omega), if_neg (by omega), if_neg (by omega), if_neg (by omega),
      if_neg (by omega), if_neg (by omega)]
  have hz : ∀ k, k < 512 → B5.getD k 0 = (hdrBuf p).getD k 0 := by
    intro k hk
    rw [hB5k, if_neg (by omega), hB4k,
      chanByte_none p.channels 0 k (fun j hj => ⟨by omega, by omega, by omega⟩),
      Option.getD_none]
  have h00 : B5.getD 0 0 = p.size.1 / 256 := by rw [hz 0 (by omega), hdrBuf_getD]; simp
  have h01 : B5.getD 1 0 = p.size.1 % 256 := by rw [hz 1 (by omega), hdrBuf_getD]; simp
  have h02 : B5.getD 2 0 = p.size.2 / 256 := by rw [hz 2 (by omega), hdrBuf_getD]; simp
  have h03 : B5.getD 3 0 = p.size.2 % 256 := by rw [hz 3 (by omega), hdrBuf_getD]; simp
  have h30 : B5.getD 30 0 = p.drop % 256 := by rw [hz 30 (by omega), hdrBuf_getD]; simp
  have h31 : B5.getD 31 0 = p.drop / 256 := by rw [hz 31 (by omega), hdrBuf_getD]; simp
  have h18 : B5.getD 18 0 = 0 := by rw [hz 18 (by omega), hdrBuf_getD]; simp
  have h19 : B5.getD 19 0 = 0 := by rw [hz 19 (by omega), hdrBuf_getD]; simp
  have hgreen : ∀ i, i < 256 → B5.getD (512 + i) 0 = decodedGreen p i := by
    intro i hi
    rw [hB5k, if_neg (by omega), hB4k, hdrz (512 + i) (by omega)]
    by_cases h1 : 1 ≤ i ∧ i ≤ p.channels.length
    · have hk : 512 + i = 513 + (i - 1) := by omega
      rw [hk, chanByte_green p.channels 0 (i - 1) (by omega) (by omega) (by omega),
        Option.getD_some, decodedGreen, if_pos h1, Nat.sub_zero]
    · rw [chanByte_none p.channels 0 (512 + i)
        (fun j hj => ⟨by omega, by omega, by omega⟩), Option.getD_none,
        decodedGreen, if_neg h1]
  have hred : ∀ i, i < 256 → B5.getD (768 + i) 0 = decodedRed p i := by
    intro i hi
    rw [hB5k, if_neg (by omega), hB4k, hdrz (768 + i) (by omega)]
    by_cases hcl : i = 0 ∧ p.channels.length = 256
    · have hk : 768 + i = 513 + 255 := by omega
      rw [hk, chanByte_green p.channels 0 255 (by omega) (by omega) (by omega),
        Option.getD_some, decodedRed, if_pos hcl, Nat.sub_zero]
    · by_cases hin : i < p.channels.length
      · rw [chanByte_red p.channels 0 i (by omega) (by omega) (by omega) (by omega),
          Option.getD_some, decodedRed, if_neg hcl, if_pos hin, Nat.sub_zero]
      · rw [chanByte_none p.channels 0 (768 + i)
          (fun j hj => ⟨by omega, by omega, by omega⟩), Option.getD_none,
          decodedRed, if_neg hcl, if_neg hin]
  have hblue : ∀ i, i < 256 → B5.getD (1024 + i) 0 = decodedBlue p i := by
    intro i hi
    rw [hB5k, if_neg (by omega), hB4k, hdrz (1024 + i) (by omega)]
    by_cases h1 : 1 ≤ i ∧ i ≤ p.channels.length
    · have hk : 1024 + i = 1025 + (i - 1) := by omega
      rw [hk, chanByte_blue p.channels 0 (i - 1) (by omega) (by omega) (by omega),
        Option.getD_some, decodedBlue, if_pos h1, Nat.sub_zero]
    · rw [chanByte_none p.channels 0 (1024 + i)
        (fun j hj => ⟨by omega, by omega, by omega⟩), Option.getD_none,
        decodedBlue, if_neg h1]
  have hbm : ∀ j, j < p.bitmap.length → B5.getD (1536 + j) 0 = p.bitmap.getD j 0 := by
    intro j hj
    rw [hB5k, if_pos ⟨by omega, by omega⟩]
    have he : 1536 + j - 1536 = j := by omega
    rw [he]
  by_cases hq0 : 0 < p.qual
  · have hp6 : packBE16 B5 18 p.qual =
        .ok ((B5.set 18 (p.qual / 256)).set 19 (p.qual % 256)) := by
      rw [packBE16, if_pos ⟨hq, by omega⟩]
    have hkeep : ∀ k, k ≠ 18 → k ≠ 19 →
        ((B5.set 18 (p.qual / 256)).set 19 (p.qual % 256)).getD k 0 = B5.getD k 0 := by
      intro k k18 k19
      rw [getD_set, getD_set, if_neg (fun hx => k19 hx.1), if_neg (fun hx => k18 hx.1)]
    refine ⟨(B5.set 18 (p.qual / 256)).set 19 (p.qual % 256), ?_, ?_, ?_, ?_, ?_, ?_,
      ?_, ?_, ?_, ?_, ?_, ?_, ?_, ?_⟩
    · rw [hds]
      simp only [hpb, bind_ok, if_pos hq0, hp6]
    · simp only [List.length_set]; omega
    · rw [hkeep 0 (by omega) (by omega)]; exact h00
    · rw [hkeep 1 (by omega) (by omega)]; exact h01
    · rw [hkeep 2 (by omega) (by omega)]; exact h02
    · rw [hkeep 3 (by omega) (by omega)]; exact h03
    · rw [hkeep 30 (by omega) (by omega)]; exact h30
    · rw [hkeep 31 (by omega) (by omega)]; exact h31
    · rw [getD_set, if_neg (by omega), getD_set, if_pos ⟨rfl, by omega⟩]
    · rw [getD_set, if_pos ⟨rfl, by rw [List.length_set]; omega⟩]
    · intro i hi
      rw [hkeep (512 + i) (by omega) (by omega)]
      exact hgreen i hi
    · intro i hi
      rw [hkeep (768 + i) (by omega) (by omega)]
      exact hred i hi
    · intro i hi
      rw [hkeep (1024 + i) (by omega) (by omega)]
      exact hblue i hi
    · intro j hj
      rw [hkeep (1536 + j) (by omega) (by omega)]
      exact hbm j hj
  · have hq00 : p.qual = 0 := by omega
    refine ⟨B5, ?_, hB5L, h00, h01, h02, h03, h30, h31, ?_, ?_, hgreen, hred, hblue, hbm⟩
    · rw [hds]
      simp only [hpb, bind_ok, if_neg hq0]
    · rw [h18, hq00, Nat.zero_div]
    · rw [h19, hq00, Nat.zero_mod]

/-! ### Decoding an encoded buffer -/

theorem loads_dumps (p : Pattern) (hv : Valid p) :
    ∃ B, dumps p = .ok B ∧ loads B = .ok ⟨(p.size.1, p.size.2), p.drop,
      (List.range 256).map (fun i => ((decodedRed p i, decodedGreen p i,
        decodedBlue p i) : RGB)), p.bitmap, p.qual⟩ := by
  obtain ⟨B, hB, hBl, f0, f1, f2, f3, f30, f31, f18, f19, fg, fr, fb, fbm⟩ :=
    dumps_spec p hv
  obtain ⟨hw, hh, hd, hq, hcn, hcv, hbv, hbl⟩ := hv
  have hu1 : unpackBE16 B 0 = .ok p.size.1 := by
    rw [unpackBE16, if_pos (by omega)]
    congr 1
    rw [f0, f1]
    omega
  have hu2 : unpackBE16 B 2 = .ok p.size.2 := by
    rw [unpackBE16, if_pos (by omega)]
    congr 1
    rw [f2, f3]
    omega
  have hu3 : unpackLE16 B 30 = .ok p.drop := by
    rw [unpackLE16, if_pos (by omega)]
    congr 1
    rw [f30, f31]
    omega
  have hu4 : unpackBE16 B 18 = .ok p.qual := by
    rw [unpackBE16, if_pos (by omega)]
    congr 1
    rw [f18, f19]
    omega
  have hg : unpackBytes B 512 256 =
      .ok ((List.range 256).map fun i => B.getD (512 + i) 0) := by
    rw [unpackBytes, if_pos (by omega)]
  have hr : unpackBytes B 768 256 =
      .ok ((List.range 256).map fun i => B.getD (768 + i) 0) := by
    rw [unpackBytes, if_pos (by omega)]
  have hbu : unpackBytes B 1024 256 =
      .ok ((List.range 256).map fun i => B.getD (1024 + i) 0) := by
    rw [unpackBytes, if_pos (by omega)]
  have hbm2 : unpackBytes B 1536 (p.size.1 * p.size.2) = .ok p.bitmap := by
    rw [unpackBytes, if_pos (by omega)]
    congr 1
    apply List.ext_getElem
    · simp only [List.length_map, List.length_range]
      omega
    · intro n h1 h2
      have hn : n < p.bitmap.length := h2
      simp only [List.getElem_map, List.getElem_range]
      rw [fbm n hn, List.getD_eq_getElem p.bitmap 0 hn]
  have hCeq : ((List.range 256).map fun i =>
      ((((List.range 256).map fun j => B.getD (768 + j) 0).getD i 0,
        ((List.range 256).map fun j => B.getD (512 + j) 0).getD i 0,
        ((List.range 256).map fun j => B.getD (1024 + j) 0).getD i 0) : RGB)) =
      (List.range 256).map (fun i => ((decodedRed p i, decodedGreen p i,
        decodedBlue p i) : RGB)) := by
    apply List.ext_getElem
    · simp
    · intro n h1 h2
      have hn : n < 256 := by
        simp only [List.length_map, List.length_range] at h1
        exact h1
      simp only [List.getElem_map, List.getElem_range]
      rw [getD_range_map _ 256 n _ hn, getD_range_map _ 256 n _ hn,
        getD_range_map _ 256 n _ hn, fr n hn, fg n hn, fb n hn]
  refine ⟨B, hB, ?_⟩
  rw [loads]
  simp only [hu1, bind_ok, hu2, hu3, hg, hr, hbu, hbm2, hu4]
  rw [hCeq, Pattern.init, if_neg (by simp [Pattern.MAX_CHANNELS])]

/-! ### Further helper lemmas -/

theorem map_ok {α β : Type} (f : α → β) (a : α) :
    (Except.ok a : Except PatError α).map f = .ok (f a) := rfl

theorem map_err {α β : Type} (f : α → β) (e : PatError) :
    (Except.error e : Except PatError α).map f = .error e := rfl

theorem pasteLoop_size (w d : Nat) (im pat : Image) (r k : Nat) :
    (pasteLoop w d im pat r k).size = im.size := by
  induction k generalizing im pat r with
  | zero => rfl
  | succ k ih => exact ih (im.paste pat (w * r) 0) (pat.offsetY d) (r + 1)

theorem lookupPixels_oob (cs : List RGB) (bs : List Nat)
    (h : ∃ b ∈ bs, cs.length ≤ b) : lookupPixels cs bs = .error .indexError := by
  induction bs with
  | nil => simp at h
  | cons b rest ih =>
    obtain ⟨w, hw, hlen⟩ := h
    rw [lookupPixels]
    cases hcb : cs[b]? with
    | none => rfl
    | some c =>
      have hb : b < cs.length := by
        by_contra hcon
        rw [List.getElem?_eq_none (by omega)] at hcb
        cases hcb
      have hrest : ∃ w ∈ rest, cs.length ≤ w := by
        rcases List.mem_cons.mp hw with h1 | h1
        · subst h1
          exact absurd hb (by omega)
        · exact ⟨w, h1, hlen⟩
      rw [ih hrest]
      rfl

/-- The 16-bit big-endian value stored at offset `off` of a byte string
(the value `unpack_from` reads when the buffer is long enough). -/
def be16at (s : List Nat) (off : Nat) : Nat := s.getD off 0 * 256 + s.getD (off + 1) 0

theorem loads_short (s : List Nat)
    (hlen : s.length < 1536 + be16at s 0 * be16at s 2) :
    loads s = .error .structError := by
  simp only [be16at] at hlen
  by_cases h2 : s.length < 2
  · have h : unpackBE16 s 0 = .error .structError := by rw [unpackBE16, if_neg (by omega)]
    rw [loads, h, bind_err]
  · by_cases h4 : s.length < 4
    · have hu1 : unpackBE16 s 0 = .ok (be16at s 0) := by rw [unpackBE16, if_pos (by omega)]; rfl
      have h : unpackBE16 s 2 = .error .structError := by rw [unpackBE16, if_neg (by omega)]
      rw [loads]
      simp only [hu1, bind_ok, h, bind_err]
    · by_cases h32 : s.length < 32
      · have hu1 : unpackBE16 s 0 = .ok (be16at s 0) := by
          rw [unpackBE16, if_pos (by omega)]; rfl
        have hu2 : unpackBE16 s 2 = .ok (be16at s 2) := by
          rw [unpackBE16, if_pos (by omega)]; rfl
        have h : unpackLE16 s 30 = .error .structError := by rw [unpackLE16, if_neg (by omega)]
        rw [loads]
        simp only [hu1, bind_ok, hu2, h, bind_err]
      · have hu1 : unpackBE16 s 0 = .ok (be16at s 0) := by
          rw [unpackBE16, if_pos (by omega)]; rfl
        have hu2 : unpackBE16 s 2 = .ok (be16at s 2) := by
          rw [unpackBE16, if_pos (by omega)]; rfl
        have hu3 : unpackLE16 s 30 = .ok (s.getD 30 0 + s.getD 31 0 * 256) := by
          rw [unpackLE16, if_pos (by omega)]
        by_cases h768 : s.length < 768
        · have h : unpackBytes s 512 256 = .error .structError := by
            rw [unpackBytes, if_neg (by omega)]
          rw [loads]
          simp only [hu1, bind_ok, hu2, hu3, h, bind_err]
        · have hg : unpackBytes s 512 256 =
              .ok ((List.range 256).map fun i => s.getD (512 + i) 0) := by
            rw [unpackBytes, if_pos (by omega)]
          by_cases h1024 : s.length < 1024
          · have h : unpackBytes s 768 256 = .error .structError := by
              rw [unpackBytes, if_neg (by omega)]
            rw [loads]
            simp only [hu1, bind_ok, hu2, hu3, hg, h, bind_err]
          · have hr : unpackBytes s 768 256 =
                .ok ((List.range 256).map fun i => s.getD (768 + i) 0) := by
              rw [unpackBytes, if_pos (by omega)]
            by_cases h1280 : s.length < 1280
            · have h : unpackBytes s 1024 256 = .error .structError := by
                rw [unpackBytes, if_neg (by omega)]
              rw [loads]
              simp only [hu1, bind_ok, hu2, hu3, hg, hr, h, bind_err]
            · have hbu : unpackBytes s 1024 256 =
                  .ok ((List.range 256).map fun i => s.getD (1024 + i) 0) := by
                rw [unpackBytes, if_pos (by omega)]
              have h : unpackBytes s 1536 (be16at s 0 * be16at s 2) =
                  .error .structError := by
                rw [unpackBytes, if_neg (by simp only [be16at]; omega)]
              rw [loads]
              simp only [hu1, bind_ok, hu2, hu3, hg, hr, hbu, h, bind_err]

/-! ### Concrete example inputs -/

def patA : Pattern := ⟨(1, 1), 1, [(1, 2, 3)], [0], 75⟩

def patB : Pattern := ⟨(1, 1), 1, [(9, 8, 7)], [0], 75⟩

def patQ75 : Pattern := ⟨(1, 1), 1, [], [], 75⟩

def patQ512 : Pattern := ⟨(1, 1), 1, [], [], 512⟩

def patQ80 : Pattern := ⟨(1, 1), 1, [], [], 80⟩

def patD : Pattern := ⟨(1, 1), 1, [], [], 0⟩

def patE : Pattern := ⟨(1, 1), 0, [(0, 0, 0)], [0], 0⟩

def patC : Pattern := ⟨(100, 324), 162, [(0, 0, 0)], [0], 0⟩

def patF : Pattern := ⟨(1, 1), 1, [(5, 5, 5)], [1], 0⟩

def imgA : Image := Image.new (2, 3)

def patG : Pattern := ⟨(2, 3), 3, [(0, 0, 0)], [0, 0, 0, 0, 0, 0], 0⟩

/-! ### The claims -/

set_option maxRecDepth 10000 in
/-- Claim C1, counterexample to the claim as stated: for the valid one-channel
pattern `patA` with channel `(1, 2, 3)`, decoding the encoded bytes yields a
pattern whose channel 0 is `(1, 0, 0)`, not `(1, 2, 3)` — the decoded first
`len(channels)` entries do not equal the original channels. -/
theorem claim1_channel_mismatch :
    (Except.map (fun q => q.channels.getD 0 (0, 0, 0)) ((dumps patA).bind loads)) =
      .ok (1, 0, 0) ∧ ((1, 0, 0) : RGB) ≠ (1, 2, 3) :=
  ⟨by decide, by decide⟩

/-- Claim C1 (amended): for every valid pattern, decoding the encoded bytes
round-trips size, drop, bitmap and qual exactly, and always yields 256
channels; the channel entries however come back staggered by the encoder's
one-byte green/blue write offset: decoded channel `i` is
`(decodedRed p i, decodedGreen p i, decodedBlue p i)`, i.e. green and blue of
original channel `i - 1` (zeros at slot 0), red of original channel `i`
(except that with exactly 256 channels, slot 0 red is original channel 255's
green), and zeros past the used slots. -/
theorem claim1_roundtrip (p : Pattern) (hv : Valid p) :
    ∃ B q, dumps p = .ok B ∧ loads B = .ok q ∧
      q.size = p.size ∧ q.drop = p.drop ∧ q.bitmap = p.bitmap ∧ q.qual = p.qual ∧
      q.channels.length = 256 ∧
      ∀ i, i < 256 → q.channels.getD i (0, 0, 0) =
        (decodedRed p i, decodedGreen p i, decodedBlue p i) := by
  obtain ⟨B, hB, hload⟩ := loads_dumps p hv
  refine ⟨B, _, hB, hload, rfl, rfl, rfl, rfl, by simp, fun i hi => ?_⟩
  show ((List.range 256).map fun i => ((decodedRed p i, decodedGreen p i,
    decodedBlue p i) : RGB)).getD i (0, 0, 0) = _
  exact getD_range_map _ 256 i _ hi

/-- Claim C1, witness: the amended round-trip theorem applied to `patA`. -/
theorem claim1_witness :
    Valid patA ∧ (∃ B q, dumps patA = .ok B ∧ loads B = .ok q ∧
      q.size = patA.size ∧ q.drop = patA.drop ∧ q.bitmap = patA.bitmap ∧
      q.qual = patA.qual ∧ q.channels.length = 256 ∧
      ∀ i, i < 256 → q.channels.getD i (0, 0, 0) =
        (decodedRed patA i, decodedGreen patA i, decodedBlue patA i)) :=
  ⟨by decide, claim1_roundtrip patA (by decide)⟩

/-- Claim C2: `rows_per_inch` equals `qual mod 10` when `71 ≤ qual ≤ 79`,
`qual mod 100` when `501 ≤ qual ≤ 1099` with `3 ≤ qual mod 100 ≤ 24`, and 0
for every other quality code. -/
theorem claim2_rows_per_inch :
    (∀ p : Pattern, 71 ≤ p.qual → p.qual ≤ 79 → p.rows_per_inch = p.qual % 10) ∧
    (∀ p : Pattern, 501 ≤ p.qual → p.qual ≤ 1099 → 3 ≤ p.qual % 100 →
      p.qual % 100 ≤ 24 → p.rows_per_inch = p.qual % 100) ∧
    (∀ p : Pattern, ¬(71 ≤ p.qual ∧ p.qual ≤ 79) →
      ¬(501 ≤ p.qual ∧ p.qual ≤ 1099 ∧ 3 ≤ p.qual % 100 ∧ p.qual % 100 ≤ 24) →
      p.rows_per_inch = 0) := by
  refine ⟨?_, ?_, ?_⟩
  · intro p h1 h2
    rw [Pattern.rows_per_inch, if_pos ⟨h1, h2⟩]
  · intro p h1 h2 h3 h4
    rw [Pattern.rows_per_inch, if_neg (by omega), if_pos ⟨h1, h2, h3, h4⟩]
  · intro p h1 h2
    rw [Pattern.rows_per_inch, if_neg h1, if_neg h2]

/-- Claim C2, witness: the three branches evaluated at quality codes 75, 512
and 80. -/
theorem claim2_witness :
    patQ75.rows_per_inch = 75 % 10 ∧ patQ512.rows_per_inch = 512 % 100 ∧
    patQ80.rows_per_inch = 0 :=
  ⟨claim2_rows_per_inch.1 patQ75 (by decide) (by decide),
   claim2_rows_per_inch.2.1 patQ512 (by decide) (by decide) (by decide) (by decide),
   claim2_rows_per_inch.2.2 patQ80 (by decide) (by decide)⟩

/-- Claim C3, counterexample to the claim as stated: with unknown resolution
the failure raised by `size_inches` is Python's `ZeroDivisionError`, not a
distinct `UnknownResolution` error (no such error exists in the code). -/
theorem claim3_not_unknown_resolution :
    patD.size_inches = .error .zeroDivisionError ∧
    PatError.zeroDivisionError ≠ PatError.unknownResolution :=
  ⟨by decide, by decide⟩

/-- Claim C3 (amended): for every pattern whose `rows_per_inch` is 0,
`size_inches` and `size_metres` fail with `ZeroDivisionError` — an explicit
failure rather than a silent infinity/NaN, but Python's division-by-zero
exception rather than a distinct resolution-unknown error. -/
theorem claim3_size_inches_fails (p : Pattern) (h : p.rows_per_inch = 0) :
    p.size_inches = .error .zeroDivisionError ∧
    p.size_metres = .error .zeroDivisionError := by
  have hsi : p.size_inches = .error .zeroDivisionError := by
    rw [Pattern.size_inches, fdiv,
      if_neg (by norm_num [Pattern.columns_per_inch]), bind_ok, fdiv,
      if_pos (by rw [h]; exact Nat.cast_zero), bind_err]
  exact ⟨hsi, by rw [Pattern.size_metres, hsi, bind_err]⟩

/-- Claim C3, witness: the amended theorem applied to `patD` (qual 0). -/
theorem claim3_witness :
    patD.rows_per_inch = 0 ∧
    (patD.size_inches = .error .zeroDivisionError ∧
      patD.size_metres = .error .zeroDivisionError) :=
  ⟨by decide, claim3_size_inches_fails patD (by decide)⟩

/-- Claim C4, counterexample to the claim as stated: `to_image` with
`full_repeat = true` on a zero-drop pattern raises `ZeroDivisionError` (the
division crash the claim says never surfaces); no `InvalidDrop` error exists
in the code. -/
theorem claim4_not_invalid_drop :
    (Pattern.to_image patE true).map Image.size = .error .zeroDivisionError ∧
    PatError.zeroDivisionError ≠ PatError.invalidDrop :=
  ⟨by decide, by decide⟩

/-- Claim C4 (amended): for every pattern with `drop = 0`, `to_image` with
`full_repeat = true` fails immediately with `ZeroDivisionError` from
`int(size[1] / drop)` — it never hangs, but the failure is exactly a
division-by-zero error, not an `InvalidDrop` error. -/
theorem claim4_drop_zero_fails (p : Pattern) (h : p.drop = 0) :
    (Pattern.to_image p true).map Image.size = .error .zeroDivisionError := by
  rw [Pattern.to_image, if_pos rfl, pyIntDiv, if_pos h, bind_err]
  rfl

/-- Claim C4, witness: the amended theorem applied to `patE` (drop 0). -/
theorem claim4_witness :
    patE.drop = 0 ∧
    (Pattern.to_image patE true).map Image.size = .error .zeroDivisionError :=
  ⟨by decide, claim4_drop_zero_fails patE (by decide)⟩

/-- Claim C5, counterexample to the claim as stated: decoding a 10-byte buffer
fails with `struct.error` (from `unpack_from`), not a `TruncatedFormat` error
(no such error exists in the code). -/
theorem claim5_not_truncated_format :
    loads (List.replicate 10 0) = .error .structError ∧
    PatError.structError ≠ PatError.truncatedFormat :=
  ⟨by decide, by decide⟩

/-- Claim C5 (amended): decoding any buffer shorter than
`1536 + width * height` bytes (width and height read big-endian from offsets
0 and 2) fails with `struct.error` and returns no pattern — an out-of-bounds
failure, but not an error named `TruncatedFormat`. -/
theorem claim5_loads_short (s : List Nat)
    (hlen : s.length < 1536 + be16at s 0 * be16at s 2) :
    loads s = .error .structError :=
  loads_short s hlen

/-- Claim C5, witness: the amended theorem applied to a 100-byte zero buffer. -/
theorem claim5_witness :
    (List.replicate 100 (0 : Nat)).length <
      1536 + be16at (List.replicate 100 0) 0 * be16at (List.replicate 100 0) 2 ∧
    loads (List.replicate 100 0) = .error .structError :=
  ⟨by decide, claim5_loads_short (List.replicate 100 0) (by decide)⟩

/-- Claim C6: `Pattern.__init__` raises `TooManyChannels` exactly when more
than 256 channels are supplied, and succeeds (returning the stored fields)
whenever at most 256 are supplied. -/
theorem claim6_channel_limit :
    (∀ (size : Nat × Nat) (drop : Nat) (channels : List RGB) (bitmap : List Nat)
      (qual : Nat), (Pattern.init size drop channels bitmap qual =
        .error .tooManyChannels ↔ 256 < channels.length)) ∧
    (∀ (size : Nat × Nat) (drop : Nat) (channels : List RGB) (bitmap : List Nat)
      (qual : Nat), channels.length ≤ 256 →
      Pattern.init size drop channels bitmap qual =
        .ok ⟨size, drop, channels, bitmap, qual⟩) := by
  constructor
  · intro size drop channels bitmap qual
    constructor
    · intro h
      by_contra hc
      rw [Pattern.init, if_neg (by simp only [Pattern.MAX_CHANNELS]; omega)] at h
      cases h
    · intro h
      rw [Pattern.init, if_pos (by simp only [Pattern.MAX_CHANNELS]; omega)]
  · intro size drop channels bitmap qual h
    rw [Pattern.init, if_neg (by simp only [Pattern.MAX_CHANNELS]; omega)]

set_option maxRecDepth 4000 in
/-- Claim C6, witness: 257 channels raise `TooManyChannels`, 256 succeed. -/
theorem claim6_witness :
    Pattern.init (1, 1) 1 (List.replicate 257 ((0, 0, 0) : RGB)) [] 0 =
      .error .tooManyChannels ∧
    (List.replicate 256 ((0, 0, 0) : RGB)).length ≤ 256 ∧
    Pattern.init (1, 1) 1 (List.replicate 256 ((0, 0, 0) : RGB)) [] 0 =
      .ok ⟨(1, 1), 1, List.replicate 256 ((0, 0, 0) : RGB), [], 0⟩ :=
  ⟨(claim6_channel_limit.1 (1, 1) 1 (List.replicate 257 ((0, 0, 0) : RGB)) [] 0).mpr
      (by decide),
   by decide,
   claim6_channel_limit.2 (1, 1) 1 (List.replicate 256 ((0, 0, 0) : RGB)) [] 0
      (by decide)⟩

/-- Claim C7: in the encoder's output, bytes 18 and 19 hold the quality code
big-endian; since the code is written only when `qual > 0` and the buffer is
zero-initialized, both bytes are zero exactly in the `qual = 0` case, and the
16-bit field always reads back as `qual`. -/
theorem claim7_qual_bytes (p : Pattern) (hv : Valid p) :
    ∃ B, dumps p = .ok B ∧ B.getD 18 0 = p.qual / 256 ∧
      B.getD 19 0 = p.qual % 256 ∧
      B.getD 18 0 * 256 + B.getD 19 0 = p.qual ∧
      (p.qual = 0 → B.getD 18 0 = 0 ∧ B.getD 19 0 = 0) := by
  obtain ⟨B, hB, _, _, _, _, _, _, _, f18, f19, _, _, _, _⟩ := dumps_spec p hv
  refine ⟨B, hB, f18, f19, by rw [f18, f19]; omega, fun h0 => ?_⟩
  rw [f18, f19, h0]
  exact ⟨Nat.zero_div 256, Nat.zero_mod 256⟩

set_option maxRecDepth 10000 in
/-- Claim C7, witness: encoding `patB` (qual 75) puts `(0, 75)` — 75 as a
big-endian 16-bit value — at offsets 18 and 19, and the theorem applies. -/
theorem claim7_witness :
    Valid patB ∧
    (dumps patB).map (fun b => (b.getD 18 0, b.getD 19 0)) = .ok (0, 75) ∧
    (∃ B, dumps patB = .ok B ∧ B.getD 18 0 = patB.qual / 256 ∧
      B.getD 19 0 = patB.qual % 256 ∧
      B.getD 18 0 * 256 + B.getD 19 0 = patB.qual ∧
      (patB.qual = 0 → B.getD 18 0 = 0 ∧ B.getD 19 0 = 0)) :=
  ⟨by decide, by decide, claim7_qual_bytes patB (by decide)⟩

/-- Claim C8: `to_image` with `full_repeat = false` returns an image of
exactly `size`; with `full_repeat = true` and `drop > 0` it returns an image
of width `size.width * (size.height / drop)` (floor division) and height
`size.height`. -/
theorem claim8_to_image_size (p : Pattern) :
    (∀ s, (Pattern.to_image p false).map Image.size = .ok s → s = p.size) ∧
    (0 < p.drop → ∀ s, (Pattern.to_image p true).map Image.size = .ok s →
      s = (p.size.1 * (p.size.2 / p.drop), p.size.2)) := by
  constructor
  · intro s hs
    cases hlp : lookupPixels p.channels p.bitmap with
    | error e =>
      have ht : Pattern.to_image p false = .error e := by
        rw [Pattern.to_image, if_neg Bool.false_ne_true, bind_ok, hlp, bind_err]
      rw [ht, map_err] at hs
      exact Except.noConfusion hs
    | ok pix =>
      have ht : Pattern.to_image p false = .ok (pasteLoop p.size.1 p.drop
          (Image.new (p.size.1 * 1, p.size.2)) ((Image.new p.size).putdata pix) 0 1) := by
        rw [Pattern.to_image, if_neg Bool.false_ne_true, bind_ok, hlp, bind_ok]
      rw [ht, map_ok] at hs
      cases hs
      rw [pasteLoop_size]
      show (p.size.1 * 1, p.size.2) = p.size
      rw [Nat.mul_one]
  · intro hd s hs
    have hrep : pyIntDiv p.size.2 p.drop = .ok (p.size.2 / p.drop) := by
      rw [pyIntDiv, if_neg (by omega)]
    cases hlp : lookupPixels p.channels p.bitmap with
    | error e =>
      have ht : Pattern.to_image p true = .error e := by
        rw [Pattern.to_image, if_pos rfl, hrep, bind_ok, hlp, bind_err]
      rw [ht, map_err] at hs
      exact Except.noConfusion hs
    | ok pix =>
      have ht : Pattern.to_image p true = .ok (pasteLoop p.size.1 p.drop
          (Image.new (p.size.1 * (p.size.2 / p.drop), p.size.2))
          ((Image.new p.size).putdata pix) 0 (p.size.2 / p.drop)) := by
        rw [Pattern.to_image, if_pos rfl, hrep, bind_ok, hlp, bind_ok]
      rw [ht, map_ok] at hs
      cases hs
      rw [pasteLoop_size]
      rfl

/-- Claim C8, witness: `patC` has size `(100, 324)` and drop 162; a single
repeat renders at `(100, 324)` and the full repeat at `(200, 324)`. -/
theorem claim8_witness :
    (Pattern.to_image patC false).map Image.size = .ok (100, 324) ∧
    ((100, 324) : Nat × Nat) = patC.size ∧
    (0 : Nat) < patC.drop ∧
    (Pattern.to_image patC true).map Image.size = .ok (200, 324) ∧
    ((200, 324) : Nat × Nat) = (patC.size.1 * (patC.size.2 / patC.drop), patC.size.2) :=
  ⟨by decide, (claim8_to_image_size patC).1 (100, 324) (by decide), by decide,
   by decide, (claim8_to_image_size patC).2 (by decide) (200, 324) (by decide)⟩

/-- Claim C9, counterexample to the claim as stated: rasterizing `patF`
(bitmap value 1, one channel) fails with Python's `IndexError` from the
`channels[bit]` lookup, not an `InvalidPaletteIndex` error (no such error
exists in the code). -/
theorem claim9_not_invalid_palette_index :
    (Pattern.to_image patF false).map Image.size = .error .indexError ∧
    PatError.indexError ≠ PatError.invalidPaletteIndex :=
  ⟨by decide, by decide⟩

/-- Claim C9 (amended): whenever some bitmap value has no corresponding
channel entry, `to_image` fails hard with `IndexError` (never clamping the
index) — though the error is Python's `IndexError`, not a distinct
`InvalidPaletteIndex`. -/
theorem claim9_oob_fails (p : Pattern) (fr : Bool) (hd : fr = true → 0 < p.drop)
    (h : ∃ b ∈ p.bitmap, p.channels.length ≤ b) :
    (Pattern.to_image p fr).map Image.size = .error .indexError := by
  have hlp := lookupPixels_oob p.channels p.bitmap h
  cases fr with
  | false =>
    rw [Pattern.to_image, if_neg Bool.false_ne_true, bind_ok, hlp, bind_err]
    rfl
  | true =>
    have hdd : 0 < p.drop := hd rfl
    have hrep : pyIntDiv p.size.2 p.drop = .ok (p.size.2 / p.drop) := by
      rw [pyIntDiv, if_neg (by omega)]
    rw [Pattern.to_image, if_pos rfl, hrep, bind_ok, hlp, bind_err]
    rfl

/-- Claim C9, witness: the amended theorem applied to `patF`, whose bitmap
value 1 equals `len(channels)`. -/
theorem claim9_witness :
    (∃ b ∈ patF.bitmap, patF.channels.length ≤ b) ∧
    (Pattern.to_image patF false).map Image.size = .error .indexError :=
  ⟨by decide, claim9_oob_fails patF false (by decide) (by decide)⟩

/-- Claim C10: `from_image` with an explicit drop argument of 0 behaves like
an unspecified drop — `drop or image.size[1]` treats 0 as falsy — so any
pattern it produces has `drop` equal to the image height, never 0. -/
theorem claim10_from_image_drop_zero (image : Image) :
    Pattern.from_image image (some 0) = Pattern.from_image image none ∧
    (∀ p, Pattern.from_image image (some 0) = .ok p → p.drop = image.size.2) := by
  constructor
  · rfl
  · intro p hp
    cases hgc : image.getcolors 256 with
    | none =>
      simp only [Pattern.from_image, hgc] at hp
      exact Except.noConfusion hp
    | some colours =>
      simp only [Pattern.from_image, hgc] at hp
      cases hli : listIndex (colours.map fun c => c.2) image.getdata with
      | error e =>
        rw [hli, bind_err] at hp
        exact Except.noConfusion hp
      | ok bitmap =>
        rw [hli, bind_ok, Pattern.init] at hp
        by_cases hlen : Pattern.MAX_CHANNELS < (colours.map fun c => c.2).length
        · rw [if_pos hlen] at hp
          exact Except.noConfusion hp
        · rw [if_neg hlen] at hp
          cases hp
          rfl

/-- Claim C10, witness: on the 2-by-3 black image, `from_image` with drop 0
yields `patG`, whose drop is the image height 3. -/
theorem claim10_witness :
    Pattern.from_image imgA (some 0) = .ok patG ∧ patG.drop = imgA.size.2 :=
  ⟨by decide, (claim10_from_image_drop_zero imgA).2 patG (by decide)⟩

end Pat
